import Mathlib

/-!
# Verification of the relevance-guided crawl engine of `src/downloader.py`

This file gives a shallow embedding of `ContentDownloader.download_content`
and `ContentDownloader._download_and_extract_links` from `src/downloader.py`,
together with the helper logic they use (per-batch URL deduplication with
context merging, the parent-context chain, oracle index filtering, the
per-link cache/fetch/extract pipeline and its error handling).

External effects (HTTP fetches, the on-disk cache, the BeautifulSoup/regex
link extractors, the LLM relevance oracle) are modelled as a deterministic
environment `CrawlEnv`: the engine's control flow, which is what the
claims are about, is translated line by line from the source.
-/

deriving instance DecidableEq for Except

/-- JSON values as produced by Python's `json.loads`, restricted to the
shapes the downloader inspects.  `jbool` is kept separate from `jint`
because Python's `bool` is a subtype of `int`: `isinstance(True, int)`
is `True`, and `True == 1`, `False == 0`. -/
inductive JVal where
  | jnull
  | jbool (b : Bool)
  | jint (n : Int)
  | jstr (s : String)
  | jlist (xs : List JVal)

/-- Python `isinstance(v, int)` for a JSON-decoded value: integers and
booleans pass (Python `bool` is a subclass of `int`), nothing else does. -/
def pyIsInt : JVal → Bool
  | .jint _ => true
  | .jbool _ => true
  | _ => false

/-- The integer value Python arithmetic sees: `True` is `1`, `False` is `0`. -/
def pyToInt : JVal → Int
  | .jint n => n
  | .jbool b => if b then 1 else 0
  | _ => 0

/-- The index-validation filter of `download_content` (downloader.py:281-283):
`[i for i in relevant_indices if isinstance(i, int) and 0 <= i < len(available_links)]`. -/
def filterIndices (xs : List JVal) (n : Nat) : List Nat :=
  (xs.filter fun v => pyIsInt v && decide (0 ≤ pyToInt v) && decide (pyToInt v < (n : Int))).map
    fun v => (pyToInt v).toNat

/-- Python truthiness of an optional string: `None` and `""` are falsy. -/
def strTruthy : Option String → Bool
  | none => false
  | some s => s ≠ ""

/-- Python's substring test `needle in hay` on strings. -/
def pyIn (needle hay : String) : Bool :=
  decide (List.IsInfix needle.data hay.data)

/-- The `DownloadLink` dataclass (downloader.py:18-22): a candidate URL with optional
provenance context. -/
structure DownloadLink where
  url : String
  parent_snippet : Option String := none
  snippet : Option String := none
deriving Repr, DecidableEq

/-- One element of `downloaded_content['results']` (downloader.py:185-205):
either a successful download record or a per-link failure record.  The
Python dicts use disjoint key sets for the two cases; the `success` flag
distinguishes them here and the unused fields default to `""`/`[]`. -/
structure CrawlResult where
  url : String
  title : String := ""
  text : String := ""
  parent_snippet : Option String := none
  snippet : Option String := none
  extracted_urls : List String := []
  success : Bool
  error : String := ""
deriving Repr, DecidableEq

/-- The context-merging of the duplicate-URL branch (downloader.py:133-148):
start from the existing value, append the incoming value joined with
`" | "` unless it is falsy or already a substring of the accumulator. -/
def mergeField (a b : Option String) : String :=
  let m := if strTruthy a then a.getD "" else ""
  if strTruthy b && !(pyIn (b.getD "") m) then
    (if m ≠ "" then m ++ " | " else m) ++ b.getD ""
  else m

/-- The merged `DownloadLink` built for a duplicate URL (downloader.py:150-154). -/
def mergeLinks (existing l : DownloadLink) : DownloadLink :=
  { url := l.url
    parent_snippet := some (mergeField existing.parent_snippet l.parent_snippet)
    snippet := some (mergeField existing.snippet l.snippet) }

/-- One step of building `url_to_links` (downloader.py:127-154): a fresh URL
is appended, a duplicate URL replaces the stored link with the merge,
keeping its original position (Python dicts preserve insertion order). -/
def insertLink (acc : List DownloadLink) (l : DownloadLink) : List DownloadLink :=
  if acc.any fun e => e.url == l.url then
    acc.map fun e => if e.url == l.url then mergeLinks e l else e
  else acc ++ [l]

/-- The per-batch URL deduplication of `_download_and_extract_links`
(downloader.py:126-154), in iteration order of `url_to_links.values()`. -/
def dedupLinks (links : List DownloadLink) : List DownloadLink :=
  links.foldl insertLink []

/-- The parent-context chain built at the top of both link extractors
(downloader.py:41-47 and 83-89). -/
def parentContext (l : DownloadLink) : String :=
  (if strTruthy l.parent_snippet then l.parent_snippet.getD "" ++ " | " else "")
    ++ (if strTruthy l.snippet then l.snippet.getD "" else "")

example : filterIndices [.jint 0, .jint 2, .jint 7, .jstr "x", .jint 4] 5 = [0, 2, 4] := by decide

example : mergeField (some "A") (some "B") = "A | B" := by decide

example : mergeField (some "A") (some "A") = "A" := by decide

/-- The `{title, text}` dict returned by `_fetch_and_process_url`
(downloader.py:373-376, 421-424) or read back from the cache; fetch
results carry no `content_type` key, so it defaults to `""` there. -/
structure PageContent where
  title : String := ""
  text : String := ""
  content_type : String := ""
deriving Repr, DecidableEq

/-- Outcome of `_get_cached_content` (downloader.py:430-440): a fresh entry,
no usable entry (missing, stale, or falsy payload), or an exception
escaping the cache layer (e.g. `json.load` on a corrupt file). -/
inductive CacheReadResult where
  | miss
  | hit (c : PageContent)
  | raiseErr (msg : String)
deriving Repr, DecidableEq

/-- Outcome of `_fetch_and_process_url` (downloader.py:327-428): it either
returns a content dict or raises. -/
inductive FetchResult where
  | ok (c : PageContent)
  | raiseErr (msg : String)
deriving Repr, DecidableEq

/-- Parse outcome of one oracle (LLM) reply in `download_content`
(downloader.py:271-276): `json.loads` either raises `JSONDecodeError`
(`parseFail`) or yields a JSON value. -/
inductive OracleResponse where
  | parseFail
  | value (v : JVal)

/-- The external collaborators of one crawl run, as deterministic functions.
Within a run every URL is fetched at most once and the cache is read
at most once per URL, so stateless functions are a faithful model.
The two extractors return the raw `(url, snippet)` pairs that
BeautifulSoup / the URL regex would discover in the text; the engine
then attaches the parent-context chain (downloader.py:36-110).
The oracle is a script of replies indexed by round; past the end of the
script it answers the empty JSON array (a reply selecting nothing). -/
structure CrawlEnv where
  cacheRead : String → CacheReadResult
  fetch : String → FetchResult
  cacheWriteOk : String → Bool
  extractHtml : String → List (String × String)
  extractText : String → List (String × String)
  oracleScript : List OracleResponse

def CrawlEnv.oracleAt (env : CrawlEnv) (n : Nat) : OracleResponse :=
  env.oracleScript.getD n (.value (.jlist []))

/-- Python `str.lower()` as applied to the content type (downloader.py:174),
implemented over the character list so that it kernel-reduces. -/
def strLower (s : String) : String :=
  { data := s.data.map Char.toLower }

/-- The `DownloadLink`s built from one page's content
(downloader.py:172-177 together with 36-110): each raw discovery becomes
a link whose `parent_snippet` is the parent's context chain. -/
def extractedLinks (env : CrawlEnv) (c : PageContent) (parent : DownloadLink) :
    List DownloadLink :=
  let pc := parentContext parent
  let raw := if pyIn "html" (strLower c.content_type) then env.extractHtml c.text
             else env.extractText c.text
  raw.map fun p => { url := p.1, parent_snippet := some pc, snippet := some p.2 }

/-- Python `seen_urls.add(url)` — `seen_urls` is a set, modelled as a
duplicate-free list. -/
def addSeen (u : String) (seen : List String) : List String :=
  if seen.contains u then seen else seen ++ [u]

/-- The failure record appended on a per-link exception (downloader.py:199-205). -/
def failResult (l : DownloadLink) (msg : String) : CrawlResult :=
  { url := l.url, parent_snippet := l.parent_snippet, snippet := l.snippet
    success := false, error := msg }

/-- The success record appended after a download (downloader.py:185-193);
`extracted_urls` lists every discovered URL, not only the unseen ones. -/
def successResult (l : DownloadLink) (c : PageContent) (newLinks : List DownloadLink) :
    CrawlResult :=
  { url := l.url, title := c.title, text := c.text
    parent_snippet := l.parent_snippet, snippet := l.snippet
    extracted_urls := newLinks.map (·.url), success := true }

/-- The unique-link accumulation loop (downloader.py:180-183): keep a new
link only if its URL is unseen, and mark it seen immediately. -/
def addExtracted (seen : List String) (newLinks : List DownloadLink) :
    List String × List DownloadLink :=
  newLinks.foldl
    (fun acc nl =>
      if acc.1.contains nl.url then acc else (addSeen nl.url acc.1, acc.2 ++ [nl]))
    (seen, [])

/-- The success path of one link (downloader.py:172-196): extract links,
admit the unseen ones, and build the success record. -/
def processSuccess (env : CrawlEnv) (l : DownloadLink) (c : PageContent)
    (seen : List String) : List String × Option CrawlResult × List DownloadLink :=
  let newLinks := extractedLinks env c l
  let p := addExtracted seen newLinks
  (p.1, some (successResult l c newLinks), p.2)

/-- Processing of one deduplicated link inside the batch loop
(downloader.py:157-205): skip empty/seen URLs, mark the URL seen, read
the cache, fetch on a miss and write the fetch back through the cache;
any exception on the way is caught by the per-link handler and recorded
as a failure record.  Returns the new seen set, the appended result (if
any) and the unseen links extracted from the page. -/
def processOne (env : CrawlEnv) (l : DownloadLink) (seen : List String) :
    List String × Option CrawlResult × List DownloadLink :=
  if l.url = "" ∨ seen.contains l.url then (seen, none, [])
  else
    let seen1 := addSeen l.url seen
    match env.cacheRead l.url with
    | .raiseErr msg => (seen1, some (failResult l msg), [])
    | .hit c => processSuccess env l c seen1
    | .miss =>
      match env.fetch l.url with
      | .raiseErr msg => (seen1, some (failResult l msg), [])
      | .ok c =>
        if env.cacheWriteOk l.url then processSuccess env l c seen1
        else (seen1, some (failResult l "cache write error"), [])

/-- The batch loop body of `_download_and_extract_links`
(downloader.py:157-205) over the already-deduplicated links, threading
the seen set and accumulating results and extracted links in order. -/
def processLinks (env : CrawlEnv) : List DownloadLink → List String →
    List CrawlResult × List DownloadLink × List String
  | [], seen => ([], [], seen)
  | l :: ls, seen =>
    let s := processOne env l seen
    let rest := processLinks env ls s.1
    (s.2.1.toList ++ rest.1, s.2.2 ++ rest.2.1, rest.2.2)

/-- The `successful_downloads` counter (downloader.py:124, 194). -/
def countSuccess (rs : List CrawlResult) : Nat :=
  (rs.filter (·.success)).length

/-- The exceptions that can escape `download_content`: the `assert False`
on an unparsable oracle reply (downloader.py:276), the `ValueError` on a
non-list reply (downloader.py:280), the per-batch
`Exception("No successful downloads")` (downloader.py:211), plus the
fuel marker of the embedding (never reached from `download_content`,
whose fuel exceeds the number of loop iterations the budget allows). -/
inductive RunError where
  | parseFailure
  | notAList
  | noSuccessfulDownloads
  | outOfFuel
deriving Repr, DecidableEq

/-- The method `_download_and_extract_links` (downloader.py:112-213): deduplicate the
batch with context merging, process each link, and raise the exhaustion
exception when a non-empty deduplicated batch produced zero successes. -/
def downloadAndExtractLinks (env : CrawlEnv) (links : List DownloadLink)
    (seen : List String) :
    Except RunError (List CrawlResult × List DownloadLink × List String) :=
  let deduped := dedupLinks links
  let t := processLinks env deduped seen
  if countSuccess t.1 = 0 ∧ 0 < deduped.length then .error .noSuccessfulDownloads
  else .ok t

/-- The mutable state of the `while` loop of `download_content`
(downloader.py:234-313): the growing link pool `all_available_links`,
`seen_urls`, the accumulated `all_content['results']`,
`downloaded_count`, and the number of oracle rounds already issued. -/
structure LoopState where
  allAvail : List DownloadLink
  seen : List String
  results : List CrawlResult
  count : Nat
  round : Nat
deriving Repr, DecidableEq

/-- Result of one pass through the loop body: the loop either finishes,
returning the results and the final `all_available_links` (from which
`extracted_links` is rendered, downloader.py:315-319), or continues with
a new state. -/
inductive StepOutcome where
  | finished (results : List CrawlResult) (residual : List DownloadLink)
  | next (st : LoopState)
deriving Repr, DecidableEq

/-- Placeholder for the (unreachable) out-of-range list access
`available_links[i]`; `filterIndices` guarantees every index is in range. -/
def defaultLink : DownloadLink := { url := "" }

/-- The `available_links` list (downloader.py:244): the pool re-filtered against
`seen_urls`. -/
def availOf (st : LoopState) : List DownloadLink :=
  st.allAvail.filter fun l => !(st.seen.contains l.url)

/-- The selection `batch_links = [available_links[i] for i in relevant_indices]`
(downloader.py:290); every filtered index is in range, so the default
never surfaces. -/
def batchOf (st : LoopState) (xs : List JVal) : List DownloadLink :=
  (filterIndices xs (availOf st).length).map fun i => (availOf st).getD i defaultLink

/-- The loop state after one batch (downloader.py:301-310): extend the
pool with the extracted links, append the batch results, advance
`downloaded_count` by the number of results in the batch, and add the
batch result URLs to `seen_urls`. -/
def nextState (st : LoopState) (res : List CrawlResult) (ex : List DownloadLink)
    (seen1 : List String) : LoopState :=
  { allAvail := st.allAvail ++ ex
    seen := res.foldl (fun s r => addSeen r.url s) seen1
    results := st.results ++ res
    count := st.count + res.length
    round := st.round + 1 }

/-- One iteration of the crawl loop of `download_content`
(downloader.py:242-313): check the guard, re-filter the available links
against `seen_urls`, consult the oracle, validate its indices, download
the selected batch via `_download_and_extract_links`, then move to the
next state. -/
def crawlStep (env : CrawlEnv) (budget : Nat) (st : LoopState) :
    Except RunError StepOutcome :=
  if st.count < budget ∧ st.allAvail ≠ [] then
    if (availOf st).isEmpty then .ok (.finished st.results st.allAvail)
    else
      match env.oracleAt st.round with
      | .parseFail => .error .parseFailure
      | .value (.jlist xs) =>
        if (filterIndices xs (availOf st).length).isEmpty then
          .ok (.finished st.results st.allAvail)
        else
          match downloadAndExtractLinks env (batchOf st xs) st.seen with
          | .error e => .error e
          | .ok (res, ex, seen1) => .ok (.next (nextState st res ex seen1))
      | .value _ => .error .notAList
  else .ok (.finished st.results st.allAvail)

/-- The crawl loop, iterated on fuel. -/
def crawlLoop (env : CrawlEnv) (budget : Nat) :
    Nat → LoopState → Except RunError (List CrawlResult × List DownloadLink)
  | 0, _ => .error .outOfFuel
  | fuel + 1, st =>
    match crawlStep env budget st with
    | .error e => .error e
    | .ok (.finished rs fr) => .ok (rs, fr)
    | .ok (.next st1) => crawlLoop env budget fuel st1

/-- The method `ContentDownloader.download_content` (downloader.py:215-325): run the
crawl loop from the seed links with everything else empty.  Each
continued iteration appends at least one result (a batch whose results
are all failures or empty raises instead), so `budget + 1` units of fuel
are more than the loop can consume. -/
def download_content (env : CrawlEnv) (links : List DownloadLink) (budget : Nat) :
    Except RunError (List CrawlResult × List DownloadLink) :=
  crawlLoop env budget (budget + 1) { allAvail := links, seen := [], results := [], count := 0, round := 0 }

/-! ## Concrete inputs used by the witnesses and counterexamples -/

/-- Seed link for `https://a.test`, as in the spec's end-to-end scenario. -/
def linkA : DownloadLink := { url := "https://a.test" }

def linkB : DownloadLink := { url := "https://b.test" }

def linkC : DownloadLink := { url := "https://c.test" }

/-- A page whose text yields no extractable links. -/
def noLinkPage : PageContent := { title := "t", text := "plain" }

/-- A benign environment: every cache read misses, every fetch succeeds
with a link-free page, cache writes succeed, and the oracle script is
empty (so every round selects nothing). -/
def baseEnv : CrawlEnv :=
  { cacheRead := fun _ => .miss
    fetch := fun _ => .ok noLinkPage
    cacheWriteOk := fun _ => true
    extractHtml := fun _ => []
    extractText := fun _ => []
    oracleScript := [] }

/-- Observer: the number of successful `CrawlResult`s of a completed run. -/
def runSuccessCount (env : CrawlEnv) (links : List DownloadLink) (budget : Nat) :
    Except RunError Nat :=
  (download_content env links budget).map fun p => countSuccess p.1

/-- Observer: result count, success count, and the result URLs of a run. -/
def runStats (env : CrawlEnv) (links : List DownloadLink) (budget : Nat) :
    Except RunError (Nat × Nat × List String) :=
  (download_content env links budget).map fun p =>
    (p.1.length, countSuccess p.1, p.1.map (·.url))


/-- Environment for the budget claim: the oracle's first reply selects
both seed links; both fetches succeed. -/
def envC1 : CrawlEnv := { baseEnv with oracleScript := [.value (.jlist [.jint 0, .jint 1])] }


/-- Environment for the parse-failure claim: round 0 succeeds on one link,
round 1 is unparsable. -/
def envC2 : CrawlEnv :=
  { baseEnv with oracleScript := [.value (.jlist [.jint 0]), .parseFail] }


/-- Environment for the exhaustion claim: the fetch of `https://b.test`
raises, everything else succeeds; the oracle picks the first available
link in each of the first two rounds. -/
def envC3 : CrawlEnv :=
  { baseEnv with
    fetch := fun u => if u = "https://b.test" then .raiseErr "boom" else .ok noLinkPage
    oracleScript := [.value (.jlist [.jint 0]), .value (.jlist [.jint 0])] }

/-- Environment for the budget-increment claim: the first reply selects two
links of which the second fails to fetch, the second reply selects the
first remaining link. -/
def envC4 : CrawlEnv :=
  { baseEnv with
    fetch := fun u => if u = "https://b.test" then .raiseErr "boom" else .ok noLinkPage
    oracleScript := [.value (.jlist [.jint 0, .jint 1]), .value (.jlist [.jint 0])] }

/-- Page fetched for `https://a.test` in the merge scenario. -/
def pageMergeA : PageContent := { text := "textA" }

/-- Page fetched for `https://c.test` in the merge scenario. -/
def pageMergeC : PageContent := { text := "textC" }

/-- Environment for the merge claim: the pages of `https://a.test` and
`https://c.test` both reference `https://b.test`, with snippets `"A"`
and `"B"` respectively. -/
def envC5 : CrawlEnv :=
  { baseEnv with
    fetch := fun u => if u = "https://a.test" then .ok pageMergeA else .ok pageMergeC
    extractText := fun t =>
      if t = "textA" then [("https://b.test", "A")]
      else if t = "textC" then [("https://b.test", "B")]
      else [] }

/-- Page fetched for `https://a.test` in the end-to-end scenario: its text
references `https://b.test`. -/
def pageEndToEnd : PageContent := { title := "A", text := "see https://b.test" }

/-- Environment for the end-to-end claim: fetching `https://a.test` yields
text referencing `https://b.test`, every fetch succeeds, and the oracle
always selects all candidates of the round it is shown. -/
def envC6 : CrawlEnv :=
  { baseEnv with
    fetch := fun u => if u = "https://a.test" then .ok pageEndToEnd else .ok noLinkPage
    extractText := fun t =>
      if t = "see https://b.test" then [("https://b.test", "see https://b.test")] else []
    oracleScript := [.value (.jlist [.jint 0]), .value (.jlist [.jint 0, .jint 1])] }

/-- Environment for the index-filtering claim: the single reply contains
no valid index. -/
def envC8 : CrawlEnv := { baseEnv with oracleScript := [.value (.jlist [.jstr "x"])] }

/-- Environment for the cache-error claim: the cache read of
`https://a.test` raises, everything else behaves. -/
def envC9 : CrawlEnv :=
  { baseEnv with
    cacheRead := fun u => if u = "https://a.test" then .raiseErr "cache corrupt" else .miss }

/-- Observer for one loop iteration: the `downloaded_count` and the number
of successful results after the step, when the loop continues. -/
def stepCountAndSuccess (env : CrawlEnv) (budget : Nat) (st : LoopState) :
    Except RunError (Option (Nat × Nat)) :=
  (crawlStep env budget st).map fun o =>
    match o with
    | .next st1 => some (st1.count, countSuccess st1.results)
    | .finished _ _ => none

/-! ## Helper lemmas -/

theorem countSuccess_le_length (rs : List CrawlResult) : countSuccess rs ≤ rs.length :=
  List.length_filter_le _ rs

theorem countSuccess_append (rs1 rs2 : List CrawlResult) :
    countSuccess (rs1 ++ rs2) = countSuccess rs1 + countSuccess rs2 := by
  simp [countSuccess, List.filter_append]

theorem filterIndices_length_le (xs : List JVal) (n : Nat) :
    (filterIndices xs n).length ≤ xs.length := by
  simpa [filterIndices] using List.length_filter_le _ xs

theorem batchOf_length_le (st : LoopState) (xs : List JVal) :
    (batchOf st xs).length ≤ xs.length := by
  simpa [batchOf] using filterIndices_length_le xs (availOf st).length

theorem insertLink_length_le (acc : List DownloadLink) (l : DownloadLink) :
    (insertLink acc l).length ≤ acc.length + 1 := by
  unfold insertLink
  split
  · simp
  · simp

theorem insertLink_length_ge (acc : List DownloadLink) (l : DownloadLink) :
    acc.length ≤ (insertLink acc l).length := by
  unfold insertLink
  split
  · simp
  · simp

theorem dedupLinks_length_le (links : List DownloadLink) :
    (dedupLinks links).length ≤ links.length := by
  suffices h : ∀ ls acc : List DownloadLink,
      (ls.foldl insertLink acc).length ≤ acc.length + ls.length by
    simpa using h links []
  intro ls
  induction ls with
  | nil => simp
  | cons l ls ih =>
    intro acc
    calc ((l :: ls).foldl insertLink acc).length = (ls.foldl insertLink (insertLink acc l)).length := rfl
      _ ≤ (insertLink acc l).length + ls.length := ih _
      _ ≤ acc.length + 1 + ls.length := by
          exact Nat.add_le_add_right (insertLink_length_le acc l) _
      _ = acc.length + (l :: ls).length := by simp [Nat.add_assoc, Nat.add_comm 1]

theorem dedupLinks_ne_nil (links : List DownloadLink) (h : links ≠ []) :
    dedupLinks links ≠ [] := by
  suffices hlen : ∀ ls acc : List DownloadLink, acc.length ≤ (ls.foldl insertLink acc).length by
    cases links with
    | nil => exact absurd rfl h
    | cons l ls =>
      have h1 : (insertLink [] l).length ≤ ((l :: ls).foldl insertLink []).length := hlen ls _
      have h2 : (insertLink [] l).length = 1 := by simp [insertLink]
      intro hn
      rw [dedupLinks] at hn
      rw [hn] at h1
      simp [h2] at h1
  intro ls
  induction ls with
  | nil => simp
  | cons l ls ih =>
    intro acc
    exact le_trans (insertLink_length_ge acc l) (ih (insertLink acc l))

theorem processLinks_length_le (env : CrawlEnv) :
    ∀ (ls : List DownloadLink) (seen : List String),
      (processLinks env ls seen).1.length ≤ ls.length := by
  intro ls
  induction ls with
  | nil => intro seen; simp [processLinks]
  | cons l ls ih =>
    intro seen
    show ((processOne env l seen).2.1.toList ++
        (processLinks env ls (processOne env l seen).1).1).length ≤ _
    calc ((processOne env l seen).2.1.toList ++
            (processLinks env ls (processOne env l seen).1).1).length
        = (processOne env l seen).2.1.toList.length +
            (processLinks env ls (processOne env l seen).1).1.length := by
          simp
      _ ≤ 1 + ls.length := by
          refine Nat.add_le_add ?_ (ih _)
          cases (processOne env l seen).2.1 <;> simp
      _ = (l :: ls).length := by simp [Nat.add_comm]

theorem mem_addSeen_self (u : String) (seen : List String) : u ∈ addSeen u seen := by
  unfold addSeen
  split
  · exact List.elem_iff.mp ‹_›
  · simp

theorem mem_addSeen_of_mem (u : String) (seen : List String) {v : String} (h : v ∈ seen) :
    v ∈ addSeen u seen := by
  unfold addSeen
  split
  · exact h
  · simp [h]

theorem addExtracted_acc_mono (v : String) :
    ∀ (nls : List DownloadLink) (acc : List String × List DownloadLink), v ∈ acc.1 →
      v ∈ (nls.foldl
        (fun acc nl =>
          if acc.1.contains nl.url then acc else (addSeen nl.url acc.1, acc.2 ++ [nl]))
        acc).1 := by
  intro nls
  induction nls with
  | nil => intro acc h; exact h
  | cons nl nls ih =>
    intro acc h
    rw [List.foldl_cons]
    apply ih
    show v ∈ (if acc.1.contains nl.url then acc
              else (addSeen nl.url acc.1, acc.2 ++ [nl])).1
    split
    · exact h
    · exact mem_addSeen_of_mem _ _ h

theorem mem_addExtracted (seen : List String) (nls : List DownloadLink) {v : String}
    (h : v ∈ seen) : v ∈ (addExtracted seen nls).1 :=
  addExtracted_acc_mono v nls (seen, []) h

theorem processOne_skip (env : CrawlEnv) (l : DownloadLink) (seen : List String)
    (h : l.url = "" ∨ seen.contains l.url = true) :
    processOne env l seen = (seen, none, []) := by
  unfold processOne
  rw [if_pos h]

theorem processOne_cache_raise (env : CrawlEnv) (l : DownloadLink) (seen : List String)
    (m : String) (hg : ¬(l.url = "" ∨ seen.contains l.url = true))
    (hcr : env.cacheRead l.url = .raiseErr m) :
    processOne env l seen = (addSeen l.url seen, some (failResult l m), []) := by
  unfold processOne
  rw [if_neg hg, hcr]

theorem processOne_cache_hit (env : CrawlEnv) (l : DownloadLink) (seen : List String)
    (c : PageContent) (hg : ¬(l.url = "" ∨ seen.contains l.url = true))
    (hcr : env.cacheRead l.url = .hit c) :
    processOne env l seen = processSuccess env l c (addSeen l.url seen) := by
  unfold processOne
  rw [if_neg hg, hcr]

theorem processOne_fetch_raise (env : CrawlEnv) (l : DownloadLink) (seen : List String)
    (m : String) (hg : ¬(l.url = "" ∨ seen.contains l.url = true))
    (hcr : env.cacheRead l.url = .miss) (hf : env.fetch l.url = .raiseErr m) :
    processOne env l seen = (addSeen l.url seen, some (failResult l m), []) := by
  unfold processOne
  rw [if_neg hg, hcr, hf]

theorem processOne_fetch_ok (env : CrawlEnv) (l : DownloadLink) (seen : List String)
    (c : PageContent) (hg : ¬(l.url = "" ∨ seen.contains l.url = true))
    (hcr : env.cacheRead l.url = .miss) (hf : env.fetch l.url = .ok c)
    (hw : env.cacheWriteOk l.url = true) :
    processOne env l seen = processSuccess env l c (addSeen l.url seen) := by
  unfold processOne
  rw [if_neg hg, hcr, hf]
  simp [hw]

theorem processOne_cache_write_fail (env : CrawlEnv) (l : DownloadLink) (seen : List String)
    (c : PageContent) (hg : ¬(l.url = "" ∨ seen.contains l.url = true))
    (hcr : env.cacheRead l.url = .miss) (hf : env.fetch l.url = .ok c)
    (hw : env.cacheWriteOk l.url = false) :
    processOne env l seen =
      (addSeen l.url seen, some (failResult l "cache write error"), []) := by
  unfold processOne
  rw [if_neg hg, hcr, hf]
  simp [hw]

theorem processSuccess_seen_mem (env : CrawlEnv) (l : DownloadLink) (c : PageContent)
    (seen : List String) {v : String} (h : v ∈ seen) :
    v ∈ (processSuccess env l c seen).1 := by
  unfold processSuccess
  exact mem_addExtracted _ _ h

theorem processOne_seen_mono (env : CrawlEnv) (l : DownloadLink) (seen : List String)
    {v : String} (h : v ∈ seen) : v ∈ (processOne env l seen).1 := by
  by_cases hg : l.url = "" ∨ seen.contains l.url = true
  · rw [processOne_skip env l seen hg]
    exact h
  · have h1 : v ∈ addSeen l.url seen := mem_addSeen_of_mem _ _ h
    cases hcr : env.cacheRead l.url with
    | raiseErr m => rw [processOne_cache_raise env l seen m hg hcr]; exact h1
    | hit c =>
      rw [processOne_cache_hit env l seen c hg hcr]
      exact processSuccess_seen_mem env l c _ h1
    | miss =>
      cases hf : env.fetch l.url with
      | raiseErr m => rw [processOne_fetch_raise env l seen m hg hcr hf]; exact h1
      | ok c =>
        cases hw : env.cacheWriteOk l.url with
        | true =>
          rw [processOne_fetch_ok env l seen c hg hcr hf hw]
          exact processSuccess_seen_mem env l c _ h1
        | false => rw [processOne_cache_write_fail env l seen c hg hcr hf hw]; exact h1

theorem processOne_result_url (env : CrawlEnv) (l : DownloadLink) (seen : List String)
    (r : CrawlResult) (h : (processOne env l seen).2.1 = some r) :
    r.url ∉ seen ∧ r.url ∈ (processOne env l seen).1 := by
  by_cases hg : l.url = "" ∨ seen.contains l.url = true
  · rw [processOne_skip env l seen hg] at h
    exact absurd h (by simp)
  · have hns : l.url ∉ seen := fun hmem => hg (Or.inr (List.elem_iff.mpr hmem))
    have hself : l.url ∈ addSeen l.url seen := mem_addSeen_self _ _
    cases hcr : env.cacheRead l.url with
    | raiseErr m =>
      rw [processOne_cache_raise env l seen m hg hcr] at h ⊢
      cases h
      exact ⟨hns, hself⟩
    | hit c =>
      rw [processOne_cache_hit env l seen c hg hcr] at h ⊢
      unfold processSuccess at h ⊢
      cases h
      exact ⟨hns, mem_addExtracted _ _ hself⟩
    | miss =>
      cases hf : env.fetch l.url with
      | raiseErr m =>
        rw [processOne_fetch_raise env l seen m hg hcr hf] at h ⊢
        cases h
        exact ⟨hns, hself⟩
      | ok c =>
        cases hw : env.cacheWriteOk l.url with
        | true =>
          rw [processOne_fetch_ok env l seen c hg hcr hf hw] at h ⊢
          unfold processSuccess at h ⊢
          cases h
          exact ⟨hns, mem_addExtracted _ _ hself⟩
        | false =>
          rw [processOne_cache_write_fail env l seen c hg hcr hf hw] at h ⊢
          cases h
          exact ⟨hns, hself⟩

theorem foldl_addSeen_mono (rs : List CrawlResult) :
    ∀ (seen : List String) {v : String}, v ∈ seen →
      v ∈ rs.foldl (fun s r => addSeen r.url s) seen := by
  induction rs with
  | nil => intro seen v h; exact h
  | cons r rs ih => intro seen v h; exact ih _ (mem_addSeen_of_mem _ _ h)

theorem processLinks_cons (env : CrawlEnv) (l : DownloadLink) (ls : List DownloadLink)
    (seen : List String) :
    processLinks env (l :: ls) seen =
      ((processOne env l seen).2.1.toList ++ (processLinks env ls (processOne env l seen).1).1,
       (processOne env l seen).2.2 ++ (processLinks env ls (processOne env l seen).1).2.1,
       (processLinks env ls (processOne env l seen).1).2.2) := rfl

theorem processLinks_spec (env : CrawlEnv) :
    ∀ (ls : List DownloadLink) (seen : List String),
      (∀ v ∈ seen, v ∈ (processLinks env ls seen).2.2) ∧
      (∀ r ∈ (processLinks env ls seen).1,
        r.url ∉ seen ∧ r.url ∈ (processLinks env ls seen).2.2) ∧
      ((processLinks env ls seen).1.map (·.url)).Nodup := by
  intro ls
  induction ls with
  | nil =>
    intro seen
    exact ⟨fun v hv => hv, by simp [processLinks], by simp [processLinks]⟩
  | cons l ls ih =>
    intro seen
    rw [processLinks_cons]
    obtain ⟨ihMono, ihRes, ihNodup⟩ := ih (processOne env l seen).1
    have hmono : ∀ v ∈ seen, v ∈ (processLinks env ls (processOne env l seen).1).2.2 :=
      fun v hv => ihMono v (processOne_seen_mono env l seen hv)
    refine ⟨hmono, ?_, ?_⟩
    · intro r hr
      rcases List.mem_append.mp hr with hr1 | hr2
      · have hsome : (processOne env l seen).2.1 = some r := by
          cases hopt : (processOne env l seen).2.1 with
          | none => rw [hopt] at hr1; simp at hr1
          | some r0 =>
            rw [hopt] at hr1
            simp at hr1
            rw [hr1]
        obtain ⟨hnot, hmem⟩ := processOne_result_url env l seen r hsome
        exact ⟨hnot, ihMono _ hmem⟩
      · obtain ⟨hnot, hmem⟩ := ihRes r hr2
        exact ⟨fun hv => hnot (processOne_seen_mono env l seen hv), hmem⟩
    · rw [List.map_append]
      rw [List.nodup_append]
      refine ⟨?_, ihNodup, ?_⟩
      · cases hopt : (processOne env l seen).2.1 <;> simp
      · intro a ha hb
        rcases List.mem_map.mp ha with ⟨r0, hr0, rfl⟩
        rcases List.mem_map.mp hb with ⟨r1, hr1, hurl⟩
        have hsome : (processOne env l seen).2.1 = some r0 := by
          cases hopt : (processOne env l seen).2.1 with
          | none => rw [hopt] at hr0; simp at hr0
          | some rr =>
            rw [hopt] at hr0
            simp at hr0
            rw [hr0]
        have h0 : r0.url ∈ (processOne env l seen).1 :=
          (processOne_result_url env l seen r0 hsome).2
        have h1 : r1.url ∉ (processOne env l seen).1 := (ihRes r1 hr1).1
        rw [hurl] at h1
        exact h1 h0

theorem downloadAndExtract_ok_spec (env : CrawlEnv) (links : List DownloadLink)
    (seen : List String) (t : List CrawlResult × List DownloadLink × List String)
    (h : downloadAndExtractLinks env links seen = .ok t) :
    t = processLinks env (dedupLinks links) seen ∧
    (links ≠ [] → 1 ≤ countSuccess t.1) := by
  unfold downloadAndExtractLinks at h
  dsimp only [] at h
  split at h
  · exact absurd h (by simp)
  · rename_i hcond
    cases h
    refine ⟨rfl, fun hne => ?_⟩
    have hd : dedupLinks links ≠ [] := dedupLinks_ne_nil links hne
    have hpos : 0 < (dedupLinks links).length := List.length_pos.mpr hd
    by_contra hlt
    exact hcond ⟨by omega, hpos⟩

theorem crawlStep_finished_spec (env : CrawlEnv) (budget : Nat) (st : LoopState)
    (rs : List CrawlResult) (fr : List DownloadLink)
    (h : crawlStep env budget st = .ok (.finished rs fr)) :
    rs = st.results ∧ fr = st.allAvail := by
  unfold crawlStep at h
  split at h
  · split at h
    · cases h; exact ⟨rfl, rfl⟩
    · split at h
      · exact absurd h (by simp)
      · split at h
        · cases h; exact ⟨rfl, rfl⟩
        · split at h
          · exact absurd h (by simp)
          · exact absurd h (by simp)
      · exact absurd h (by simp)
  · cases h; exact ⟨rfl, rfl⟩

theorem crawlStep_next_spec (env : CrawlEnv) (budget : Nat) (st st1 : LoopState)
    (h : crawlStep env budget st = .ok (.next st1)) :
    st.count < budget ∧ ∃ xs res ex seen1,
      env.oracleAt st.round = .value (.jlist xs) ∧
      downloadAndExtractLinks env (batchOf st xs) st.seen = .ok (res, ex, seen1) ∧
      batchOf st xs ≠ [] ∧
      st1 = nextState st res ex seen1 := by
  unfold crawlStep at h
  split at h
  · rename_i hcond
    split at h
    · exact absurd h (by simp)
    · split at h
      · exact absurd h (by simp)
      · rename_i xs hxs
        split at h
        · exact absurd h (by simp)
        · rename_i hidx
          split at h
          · exact absurd h (by simp)
          · rename_i res ex seen1 hdl
            cases h
            refine ⟨hcond.1, xs, res, ex, seen1, hxs, hdl, ?_, rfl⟩
            have : (filterIndices xs (availOf st).length) ≠ [] := by
              intro hnil
              rw [hnil] at hidx
              simp at hidx
            intro hbn
            apply this
            have := congrArg List.length hbn
            simp [batchOf] at this
            exact this
      · exact absurd h (by simp)
  · exact absurd h (by simp)

theorem crawlLoop_nodup (env : CrawlEnv) (budget : Nat) :
    ∀ (fuel : Nat) (st : LoopState) (rs : List CrawlResult) (fr : List DownloadLink),
      (st.results.map (·.url)).Nodup →
      (∀ r ∈ st.results, r.url ∈ st.seen) →
      crawlLoop env budget fuel st = .ok (rs, fr) →
      (rs.map (·.url)).Nodup := by
  intro fuel
  induction fuel with
  | zero =>
    intro st rs fr _ _ h
    exact absurd h (by simp [crawlLoop])
  | succ fuel ih =>
    intro st rs fr hnd hsub h
    rw [crawlLoop] at h
    cases hstep : crawlStep env budget st with
    | error e => rw [hstep] at h; simp at h
    | ok out =>
      rw [hstep] at h
      cases out with
      | finished rs0 fr0 =>
        simp at h
        obtain ⟨hr, _⟩ := crawlStep_finished_spec env budget st rs0 fr0 hstep
        rw [← h.1, hr]
        exact hnd
      | next st1 =>
        refine ih st1 rs fr ?_ ?_ h
        all_goals
          obtain ⟨hcount, xs, res, ex, seen1, hxs, hdl, hbne, hst1⟩ :=
            crawlStep_next_spec env budget st st1 hstep
        all_goals
          obtain ⟨ht, _⟩ := downloadAndExtract_ok_spec env _ _ _ hdl
        all_goals
          obtain ⟨pMono, pRes, pNodup⟩ :=
            processLinks_spec env (dedupLinks (batchOf st xs)) st.seen
        all_goals
          have hres : res = (processLinks env (dedupLinks (batchOf st xs)) st.seen).1 :=
            congrArg (fun t => t.1) ht
        all_goals
          have hseen1 : seen1 = (processLinks env (dedupLinks (batchOf st xs)) st.seen).2.2 :=
            congrArg (fun t => t.2.2) ht
        · -- the URLs of the accumulated results stay pairwise distinct
          rw [hst1]
          show ((st.results ++ res).map (·.url)).Nodup
          rw [List.map_append, List.nodup_append]
          refine ⟨hnd, by rw [hres]; exact pNodup, ?_⟩
          intro a ha hb
          rcases List.mem_map.mp ha with ⟨r0, hr0, rfl⟩
          rcases List.mem_map.mp hb with ⟨r1, hr1, hurl⟩
          rw [hres] at hr1
          have hnot : r1.url ∉ st.seen := (pRes r1 hr1).1
          rw [hurl] at hnot
          exact hnot (hsub r0 hr0)
        · -- every accumulated result URL is in the new seen set
          rw [hst1]
          show ∀ r ∈ st.results ++ res,
            r.url ∈ res.foldl (fun s r => addSeen r.url s) seen1
          intro r hr
          rcases List.mem_append.mp hr with hr1 | hr2
          · have h1 : r.url ∈ st.seen := hsub r hr1
            have h2 : r.url ∈ seen1 := by
              rw [hseen1]
              exact pMono _ h1
            exact foldl_addSeen_mono res seen1 h2
          · have h2 : r.url ∈ seen1 := by
              rw [hseen1]
              rw [hres] at hr2
              exact (pRes r hr2).2
            exact foldl_addSeen_mono res seen1 h2

/-- Every JSON-array reply in the oracle script has at most `k` entries
(the prompt asks the oracle for at most 10). -/
def oracleSelBounded (env : CrawlEnv) (k : Nat) : Prop :=
  ∀ r ∈ env.oracleScript, ∀ xs : List JVal, r = .value (.jlist xs) → xs.length ≤ k

theorem oracleAt_bounded (env : CrawlEnv) (k : Nat) (hk : oracleSelBounded env k)
    (n : Nat) (xs : List JVal) (h : env.oracleAt n = .value (.jlist xs)) :
    xs.length ≤ k := by
  unfold CrawlEnv.oracleAt at h
  rw [List.getD] at h
  cases hg : env.oracleScript.get? n with
  | some r =>
    rw [hg] at h
    simp at h
    exact hk r (List.get?_mem hg) xs h
  | none =>
    rw [hg] at h
    simp at h
    simp [h]

theorem crawlLoop_length_bound (env : CrawlEnv) (budget k : Nat)
    (hk : oracleSelBounded env k) :
    ∀ (fuel : Nat) (st : LoopState) (rs : List CrawlResult) (fr : List DownloadLink),
      st.results.length = st.count →
      crawlLoop env budget fuel st = .ok (rs, fr) →
      rs.length ≤ max st.count (budget - 1 + k) := by
  intro fuel
  induction fuel with
  | zero =>
    intro st rs fr _ h
    exact absurd h (by simp [crawlLoop])
  | succ fuel ih =>
    intro st rs fr hlen h
    rw [crawlLoop] at h
    cases hstep : crawlStep env budget st with
    | error e => rw [hstep] at h; simp at h
    | ok out =>
      rw [hstep] at h
      cases out with
      | finished rs0 fr0 =>
        simp at h
        obtain ⟨hr, _⟩ := crawlStep_finished_spec env budget st rs0 fr0 hstep
        rw [← h.1, hr, hlen]
        exact Nat.le_max_left _ _
      | next st1 =>
        obtain ⟨hcount, xs, res, ex, seen1, hxs, hdl, hbne, hst1⟩ :=
          crawlStep_next_spec env budget st st1 hstep
        obtain ⟨ht, _⟩ := downloadAndExtract_ok_spec env _ _ _ hdl
        have hres : res = (processLinks env (dedupLinks (batchOf st xs)) st.seen).1 :=
          congrArg (fun t => t.1) ht
        have hresk : res.length ≤ k := by
          calc res.length
              ≤ (dedupLinks (batchOf st xs)).length := by
                rw [hres]; exact processLinks_length_le env _ _
            _ ≤ (batchOf st xs).length := dedupLinks_length_le _
            _ ≤ xs.length := batchOf_length_le st xs
            _ ≤ k := oracleAt_bounded env k hk st.round xs hxs
        have hlen1 : st1.results.length = st1.count := by
          rw [hst1]
          show (st.results ++ res).length = st.count + res.length
          rw [List.length_append, hlen]
        have hb := ih st1 rs fr hlen1 h
        have hc1 : st1.count = st.count + res.length := by rw [hst1]; rfl
        have : st1.count ≤ budget - 1 + k := by omega
        calc rs.length ≤ max st1.count (budget - 1 + k) := hb
          _ ≤ max st.count (budget - 1 + k) := by
              apply max_le (le_trans this (Nat.le_max_right _ _)) (Nat.le_max_right _ _)

/-! ## Claims -/

/-- The statement of the budget-respect claim: the number of successful
CrawlResults of a completed run never exceeds the configured budget. -/
def budgetRespected (env : CrawlEnv) (links : List DownloadLink) (budget : Nat) : Prop :=
  ∀ n, runSuccessCount env links budget = .ok n → n ≤ budget

/-- C1 counterexample: with budget 1 and an oracle reply selecting both
seed links, the single batch downloads both successfully — the run
produces 2 successful CrawlResults, exceeding the budget of 1.  The
loop guard (downloader.py:242) is only checked between batches and
`downloaded_count` (downloader.py:303) is only advanced after the whole
batch. -/
theorem budget_exceeded_counterexample :
    runSuccessCount envC1 [linkA, linkB] 1 = .ok 2 ∧
    ¬ budgetRespected envC1 [linkA, linkB] 1 := by
  constructor
  · decide
  · intro hb
    have h2 := hb 2 (by decide)
    omega

/-- C1 (amended): the budget bounds the result count at the start of every
oracle round, so a completed run's successful-CrawlResult count is at
most `budget - 1` plus the size of the final batch; with every oracle
reply selecting at most `k` candidates, it is at most `budget - 1 + k`.
It can exceed `budget` itself (see the counterexample). -/
theorem success_at_most_budget_plus_batch (env : CrawlEnv) (links : List DownloadLink)
    (budget k n : Nat) (hk : oracleSelBounded env k)
    (h : runSuccessCount env links budget = .ok n) :
    n ≤ budget - 1 + k := by
  unfold runSuccessCount at h
  cases hdc : download_content env links budget with
  | error e => rw [hdc] at h; simp [Except.map] at h
  | ok p =>
    rw [hdc] at h
    simp [Except.map] at h
    have hb := crawlLoop_length_bound env budget k hk (budget + 1)
      { allAvail := links, seen := [], results := [], count := 0, round := 0 } p.1 p.2
      (by simp) hdc
    rw [← h]
    calc countSuccess p.1 ≤ p.1.length := countSuccess_le_length _
      _ ≤ max 0 (budget - 1 + k) := hb
      _ = budget - 1 + k := by simp

/-- Witness for C1: the counterexample run (budget 1, both fetches
succeeding) stays within the amended bound `1 - 1 + 2`. -/
theorem success_at_most_budget_plus_batch_witness :
    runSuccessCount envC1 [linkA, linkB] 1 = .ok 2 ∧ (2 : Nat) ≤ 1 - 1 + 2 :=
  ⟨by decide, success_at_most_budget_plus_batch envC1 [linkA, linkB] 1 2 2
    (by
      intro r hr xs hxs
      simp [envC1, baseEnv] at hr
      rw [hr] at hxs
      injection hxs with h1
      injection h1 with h2
      rw [← h2]
      decide)
    (by decide)⟩

/-- The URLs of the successful CrawlResults of a completed run. -/
def runSuccessUrls (env : CrawlEnv) (links : List DownloadLink) (budget : Nat) :
    Except RunError (List String) :=
  (download_content env links budget).map fun p => (p.1.filter (·.success)).map (·.url)

/-- C7: within one crawl run a URL is admitted to `seen_urls` at most once
and processed (fetched) at most once — every link whose URL is already
seen is skipped (downloader.py:160-162) — so the successful CrawlResults
of a completed run carry pairwise-distinct URLs. -/
theorem no_url_in_two_success_results (env : CrawlEnv) (links : List DownloadLink)
    (budget : Nat) (us : List String)
    (h : runSuccessUrls env links budget = .ok us) : us.Nodup := by
  unfold runSuccessUrls at h
  cases hdc : download_content env links budget with
  | error e => rw [hdc] at h; simp [Except.map] at h
  | ok p =>
    rw [hdc] at h
    simp [Except.map] at h
    have hall : (p.1.map (·.url)).Nodup :=
      crawlLoop_nodup env budget (budget + 1)
        { allAvail := links, seen := [], results := [], count := 0, round := 0 } p.1 p.2
        (by simp) (by simp) hdc
    rw [← h]
    exact List.Nodup.sublist ((List.filter_sublist _).map _) hall

/-- Witness for C7: the budget-1 run that downloads both seed links yields
the two distinct URLs, and the theorem certifies their distinctness. -/
theorem no_url_in_two_success_results_witness :
    runSuccessUrls envC1 [linkA, linkB] 1 = .ok ["https://a.test", "https://b.test"] ∧
    (["https://a.test", "https://b.test"] : List String).Nodup :=
  ⟨by decide, no_url_in_two_success_results envC1 [linkA, linkB] 1 _ (by decide)⟩

/-- C2 counterexample: round 0 downloads one link successfully, round 1's
oracle reply does not parse as JSON — the whole run aborts with the
parse failure (`assert False`, downloader.py:276) instead of returning
the accumulated results. -/
theorem oracle_parse_failure_counterexample :
    envC2.oracleAt 1 = .parseFail ∧
    download_content envC2 [linkA, linkB] 5 = .error .parseFailure := by
  constructor
  · rfl
  · decide

/-- C2 (amended): an oracle reply that fails to parse as JSON is fatal to
the whole invocation: whenever the loop guard holds and unseen links are
available, the iteration — and with it the whole crawl loop, whatever
results it has accumulated — aborts with the parse failure, returning
nothing (downloader.py:273-276 with the re-raise at 323-325). -/
theorem oracle_parse_failure_aborts (env : CrawlEnv) (budget : Nat) (st : LoopState)
    (fuel : Nat) (hg : st.count < budget) (hne : st.allAvail ≠ [])
    (hav : (availOf st).isEmpty = false)
    (ho : env.oracleAt st.round = .parseFail) :
    crawlStep env budget st = .error .parseFailure ∧
    crawlLoop env budget (fuel + 1) st = .error .parseFailure := by
  have hstep : crawlStep env budget st = .error .parseFailure := by
    unfold crawlStep
    rw [if_pos ⟨hg, hne⟩, hav, ho]
    simp
  refine ⟨hstep, ?_⟩
  rw [crawlLoop, hstep]

/-- Witness for C2: a state with one accumulated successful result meets
every hypothesis and the loop aborts. -/
theorem oracle_parse_failure_aborts_witness :
    crawlStep envC2 5
        { allAvail := [linkA, linkB], seen := ["https://a.test"],
          results := [successResult linkA noLinkPage []], count := 1, round := 1 }
      = .error .parseFailure ∧
    crawlLoop envC2 5 3
        { allAvail := [linkA, linkB], seen := ["https://a.test"],
          results := [successResult linkA noLinkPage []], count := 1, round := 1 }
      = .error .parseFailure := by
  have h := oracle_parse_failure_aborts envC2 5
    { allAvail := [linkA, linkB], seen := ["https://a.test"],
      results := [successResult linkA noLinkPage []], count := 1, round := 1 }
    2 (by decide) (by decide) (by decide) rfl
  exact h

/-- C3 counterexample: a run whose first batch succeeds (the fetch of
`https://a.test` is `ok`) and whose second batch fails in full still
raises the exhaustion error — the zero-success test is per batch
(downloader.py:207-211), not across the whole run as the claim states. -/
theorem exhaustion_despite_earlier_success_counterexample :
    (downloadAndExtractLinks envC3 [linkA] []).toOption.map (fun t => countSuccess t.1)
      = some 1 ∧
    download_content envC3 [linkA, linkB] 5 = .error .noSuccessfulDownloads := by
  constructor
  · decide
  · decide

/-- C3 (amended): the exhaustion error is raised exactly when a single
batch with at least one deduplicated candidate yields zero successful
fetches in that batch (downloader.py:207-211); when a reached batch
raises it, the whole run aborts regardless of the results accumulated
from earlier batches. -/
theorem exhaustion_batch_aborts_run (env : CrawlEnv) (budget : Nat) (st : LoopState)
    (fuel : Nat) (links : List DownloadLink) (seen : List String) (xs : List JVal)
    (hg : st.count < budget) (hne : st.allAvail ≠ [])
    (hav : (availOf st).isEmpty = false)
    (ho : env.oracleAt st.round = .value (.jlist xs))
    (hidx : (filterIndices xs (availOf st).length).isEmpty = false)
    (hbatch : downloadAndExtractLinks env (batchOf st xs) st.seen
      = .error .noSuccessfulDownloads) :
    (downloadAndExtractLinks env links seen = .error .noSuccessfulDownloads ↔
      (dedupLinks links).length > 0 ∧
        countSuccess (processLinks env (dedupLinks links) seen).1 = 0) ∧
    crawlStep env budget st = .error .noSuccessfulDownloads ∧
    crawlLoop env budget (fuel + 1) st = .error .noSuccessfulDownloads := by
  refine ⟨?_, ?_⟩
  · constructor
    · intro h
      unfold downloadAndExtractLinks at h
      dsimp only [] at h
      split at h
      · rename_i hcond
        exact ⟨hcond.2, hcond.1⟩
      · exact absurd h (by simp)
    · intro ⟨h1, h2⟩
      unfold downloadAndExtractLinks
      dsimp only []
      rw [if_pos ⟨h2, h1⟩]
  · have hstep : crawlStep env budget st = .error .noSuccessfulDownloads := by
      unfold crawlStep
      rw [if_pos ⟨hg, hne⟩, hav, ho]
      simp only [Bool.false_eq_true, if_neg, not_false_iff]
      rw [hidx]
      simp only [Bool.false_eq_true, if_neg, not_false_iff]
      rw [hbatch]
    refine ⟨hstep, ?_⟩
    rw [crawlLoop, hstep]

/-- Witness for C3: the second round of the counterexample run — one
successful result already accumulated, the batch for `https://b.test`
failing in full — meets every hypothesis and aborts the loop. -/
theorem exhaustion_batch_aborts_run_witness :
    crawlStep envC3 5
        { allAvail := [linkA, linkB], seen := ["https://a.test"],
          results := [successResult linkA noLinkPage []], count := 1, round := 1 }
      = .error .noSuccessfulDownloads ∧
    crawlLoop envC3 5 4
        { allAvail := [linkA, linkB], seen := ["https://a.test"],
          results := [successResult linkA noLinkPage []], count := 1, round := 1 }
      = .error .noSuccessfulDownloads := by
  have h := exhaustion_batch_aborts_run envC3 5
    { allAvail := [linkA, linkB], seen := ["https://a.test"],
      results := [successResult linkA noLinkPage []], count := 1, round := 1 }
    3 [linkB] ["https://a.test"] [.jint 0]
    (by decide) (by decide) (by decide) rfl (by decide) (by decide)
  exact h.2

/-- C4 counterexample: with budget 2 and a first batch of one success and
one failure, `downloaded_count` jumps to 2 (not 1) and the loop stops —
the third seed `https://c.test` is never processed even though only one
fetch succeeded.  The increment is `len(batch_content['results'])`
(downloader.py:303), which counts failures too. -/
theorem increment_includes_failures_counterexample :
    stepCountAndSuccess envC4 2
        { allAvail := [linkA, linkB, linkC], seen := [], results := [], count := 0, round := 0 }
      = .ok (some (2, 1)) ∧
    runStats envC4 [linkA, linkB, linkC] 2
      = .ok (2, 1, ["https://a.test", "https://b.test"]) := by
  constructor
  · decide
  · decide

/-- C4 (amended): each continuing loop iteration advances
`downloaded_count` by the number of CrawlResults of the batch — the
successful and the failed fetches together — so failed fetches consume
budget as well. -/
theorem count_incremented_by_batch_results (env : CrawlEnv) (budget : Nat)
    (st : LoopState) (xs : List JVal) (res : List CrawlResult)
    (ex : List DownloadLink) (seen1 : List String)
    (hg : st.count < budget) (hne : st.allAvail ≠ [])
    (hav : (availOf st).isEmpty = false)
    (ho : env.oracleAt st.round = .value (.jlist xs))
    (hidx : (filterIndices xs (availOf st).length).isEmpty = false)
    (hb : downloadAndExtractLinks env (batchOf st xs) st.seen = .ok (res, ex, seen1)) :
    crawlStep env budget st = .ok (.next (nextState st res ex seen1)) ∧
    (nextState st res ex seen1).count = st.count + res.length ∧
    res.length = countSuccess res + (res.filter fun r => !r.success).length := by
  refine ⟨?_, rfl, ?_⟩
  · unfold crawlStep
    rw [if_pos ⟨hg, hne⟩, hav, ho]
    simp only [Bool.false_eq_true, if_neg, not_false_iff]
    rw [hidx]
    simp only [Bool.false_eq_true, if_neg, not_false_iff]
    rw [hb]
  · exact List.length_eq_length_filter_add _

/-- The initial state of the C4 scenario. -/
def stC4 : LoopState :=
  { allAvail := [linkA, linkB, linkC], seen := [], results := [], count := 0, round := 0 }

/-- The results of the first C4 batch: one success, one failure. -/
def resC4 : List CrawlResult :=
  [successResult linkA noLinkPage [], failResult linkB "boom"]

/-- Witness for C4: the concrete first iteration of the counterexample
run advances the count by 2 = 1 success + 1 failure. -/
theorem count_incremented_by_batch_results_witness :
    crawlStep envC4 2 stC4
      = .ok (.next (nextState stC4 resC4 [] ["https://a.test", "https://b.test"])) ∧
    (nextState stC4 resC4 [] ["https://a.test", "https://b.test"]).count = 0 + resC4.length ∧
    resC4.length = countSuccess resC4 + (resC4.filter fun r => !r.success).length :=
  count_incremented_by_batch_results envC4 2 stC4 [.jint 0, .jint 1] resC4 []
    ["https://a.test", "https://b.test"]
    (by decide) (by decide) (by decide) rfl (by decide) (by decide)

/-- C5 counterexample: `https://b.test` is discovered twice at extraction
time — once from `https://a.test` with snippet `"A"`, once from
`https://c.test` with snippet `"B"` — but the second discovery is
dropped outright (downloader.py:181-183): the surviving link keeps
snippet `"A"`, not the merged `"A | B"` the claim demands. -/
theorem extraction_duplicate_discarded_counterexample :
    (downloadAndExtractLinks envC5 [linkA, linkC] []).toOption.map
        (fun t => t.2.1.map fun l => (l.url, l.snippet))
      = some [("https://b.test", some "A")] ∧
    (some "A" : Option String) ≠ some "A | B" := by
  constructor
  · decide
  · decide

/-- C5 (amended): context merging happens only among duplicate URLs inside
one batch handed to `_download_and_extract_links`: there the surviving
link merges `parent_snippet` and `snippet` by appending with `" | "`,
skipping an incoming value that is falsy or already a substring
(downloader.py:126-154).  A link discovered at extraction time whose URL
is already seen is discarded with its context (downloader.py:181-183);
see the counterexample. -/
theorem merge_rule_within_batch (l1 l2 : DownloadLink) (h : l1.url = l2.url) :
    dedupLinks [l1, l2] = [mergeLinks l1 l2] ∧
    (∀ s1 s2 : String, s1 ≠ "" → s2 ≠ "" → pyIn s2 s1 = false →
      mergeField (some s1) (some s2) = s1 ++ " | " ++ s2) ∧
    (∀ s1 s2 : String, s1 ≠ "" → pyIn s2 s1 = true →
      mergeField (some s1) (some s2) = s1) := by
  refine ⟨?_, ?_, ?_⟩
  · show insertLink (insertLink [] l1) l2 = [mergeLinks l1 l2]
    have h1 : insertLink [] l1 = [l1] := by simp [insertLink]
    rw [h1]
    unfold insertLink
    rw [if_pos (by simp [h])]
    simp [h]
  · intro s1 s2 h1 h2 hin
    simp [mergeField, strTruthy, h1, h2, hin, String.append_assoc]
  · intro s1 s2 h1 hin
    simp [mergeField, strTruthy, h1, hin]

/-- Witness for C5: two same-URL seed links with snippets `"A"` and `"B"`
merge to `"A | B"`, and merging `"A"` into a snippet already containing
`"A"` changes nothing. -/
theorem merge_rule_within_batch_witness :
    dedupLinks [{ url := "https://x.test", snippet := some "A" },
                { url := "https://x.test", snippet := some "B" }]
      = [mergeLinks { url := "https://x.test", snippet := some "A" }
                    { url := "https://x.test", snippet := some "B" }] ∧
    mergeField (some "A") (some "B") = "A | B" ∧
    mergeField (some "A") (some "A") = "A" :=
  ⟨(merge_rule_within_batch { url := "https://x.test", snippet := some "A" }
      { url := "https://x.test", snippet := some "B" } rfl).1,
   (merge_rule_within_batch { url := "https://x.test" } { url := "https://x.test" } rfl).2.1
     "A" "B" (by decide) (by decide) (by decide),
   (merge_rule_within_batch { url := "https://x.test" } { url := "https://x.test" } rfl).2.2
     "A" "A" (by decide) (by decide)⟩

/-- C6: in the end-to-end scenario — seed `https://a.test`, its page
referencing `https://b.test`, an oracle selecting all candidates,
budget 2 — the run downloads only `https://a.test`: the extracted link
is written into `seen_urls` at discovery (downloader.py:183), so the
re-filter (downloader.py:244) removes it from `available_links` and it
is never fetched, and the residual pool returned as `extracted_links`
(downloader.py:316-319) still holds both links. -/
theorem extracted_link_never_fetched :
    (download_content envC6 [linkA] 2).toOption.map
        (fun p => (p.1.map fun r => (r.url, r.success), p.2.map (·.url)))
      = some ([("https://a.test", true)], ["https://a.test", "https://b.test"]) := by
  decide

/-- C8: oracle index validation (downloader.py:279-290) keeps exactly the
integer entries within `[0, len(available))` — with 5 candidates the
reply `[0, 2, 7, "x", 4]` selects exactly indices 0, 2 and 4 — and when
the filtered list is empty the loop ends, returning the results
accumulated so far together with the link pool. -/
theorem oracle_index_filtering (env : CrawlEnv) (budget : Nat) (st : LoopState)
    (xs : List JVal)
    (hg : st.count < budget) (hne : st.allAvail ≠ [])
    (hav : (availOf st).isEmpty = false)
    (ho : env.oracleAt st.round = .value (.jlist xs))
    (hemp : (filterIndices xs (availOf st).length).isEmpty = true) :
    filterIndices [.jint 0, .jint 2, .jint 7, .jstr "x", .jint 4] 5 = [0, 2, 4] ∧
    crawlStep env budget st = .ok (.finished st.results st.allAvail) ∧
    (∀ (ys : List JVal) (k i : Nat),
      i ∈ filterIndices ys k ↔
        ∃ v ∈ ys, pyIsInt v = true ∧ pyToInt v = (i : Int) ∧ i < k) := by
  refine ⟨by decide, ?_, ?_⟩
  · unfold crawlStep
    rw [if_pos ⟨hg, hne⟩, hav, ho]
    simp only [Bool.false_eq_true, if_neg, not_false_iff]
    rw [hemp]
    simp
  · intro ys k i
    unfold filterIndices
    constructor
    · intro hi
      rcases List.mem_map.mp hi with ⟨v, hv, rfl⟩
      rcases List.mem_filter.mp hv with ⟨hvmem, hcond⟩
      simp only [Bool.and_eq_true, decide_eq_true_eq] at hcond
      obtain ⟨⟨hint, hge⟩, hlt⟩ := hcond
      exact ⟨v, hvmem, hint, by omega, by omega⟩
    · rintro ⟨v, hvmem, hint, heq, hlt⟩
      refine List.mem_map.mpr ⟨v, List.mem_filter.mpr ⟨hvmem, ?_⟩, ?_⟩
      · simp only [Bool.and_eq_true, decide_eq_true_eq]
        exact ⟨⟨hint, by omega⟩, by omega⟩
      · rw [heq]
        simp

/-- Witness for C8: a reply containing only the string `"x"` filters to
nothing and the loop finishes with the accumulated (empty) results. -/
theorem oracle_index_filtering_witness :
    filterIndices [.jint 0, .jint 2, .jint 7, .jstr "x", .jint 4] 5 = [0, 2, 4] ∧
    crawlStep envC8 5 { allAvail := [linkA], seen := [], results := [], count := 0, round := 0 }
      = .ok (.finished [] [linkA]) :=
  ⟨(oracle_index_filtering envC8 5
      { allAvail := [linkA], seen := [], results := [], count := 0, round := 0 }
      [.jstr "x"] (by decide) (by decide) (by decide) rfl (by decide)).1,
   (oracle_index_filtering envC8 5
      { allAvail := [linkA], seen := [], results := [], count := 0, round := 0 }
      [.jstr "x"] (by decide) (by decide) (by decide) rfl (by decide)).2.1⟩

/-- C9 counterexample: the cache read of `https://a.test` raises although
its fetch would succeed — the engine records a failed CrawlResult
carrying the cache error for that URL instead of treating the failure
as a miss and fetching; the error escapes the cache layer into the
per-link handler (downloader.py:158-205) while the rest of the batch
continues. -/
theorem cache_error_not_treated_as_miss_counterexample :
    envC9.fetch "https://a.test" = .ok noLinkPage ∧
    (downloadAndExtractLinks envC9 [linkA, linkB] []).toOption.map
        (fun t => t.1.map fun r => (r.url, r.success, r.error))
      = some [("https://a.test", false, "cache corrupt"), ("https://b.test", true, "")] := by
  constructor
  · decide
  · decide

/-- C9 (amended): a cache read or write failure raises out of the cache
helpers and is caught by the per-link handler, which records the URL as
a failed CrawlResult — without fetching on a read failure, and
discarding the fetched content on a write failure; the crawl continues
with the remaining links of the batch. -/
theorem cache_failure_records_failed_result (env : CrawlEnv) (l : DownloadLink)
    (seen : List String) (m : String) (c : PageContent)
    (hu : l.url ≠ "") (hs : seen.contains l.url = false) :
    (env.cacheRead l.url = .raiseErr m →
      processOne env l seen = (addSeen l.url seen, some (failResult l m), [])) ∧
    (env.cacheRead l.url = .miss → env.fetch l.url = .ok c →
      env.cacheWriteOk l.url = false →
      processOne env l seen =
        (addSeen l.url seen, some (failResult l "cache write error"), [])) := by
  have hg : ¬(l.url = "" ∨ seen.contains l.url = true) := by
    intro hor
    rcases hor with h1 | h2
    · exact hu h1
    · rw [hs] at h2; cases h2
  exact ⟨fun hcr => processOne_cache_raise env l seen m hg hcr,
         fun hcr hf hw => processOne_cache_write_fail env l seen c hg hcr hf hw⟩

/-- Witness for C9: the concrete cache-read failure of the counterexample
environment produces exactly the failed result record. -/
theorem cache_failure_records_failed_result_witness :
    processOne envC9 linkA [] = (addSeen linkA.url [], some (failResult linkA "cache corrupt"), []) :=
  (cache_failure_records_failed_result envC9 linkA [] "cache corrupt" noLinkPage
    (by decide) (by decide)).1 rfl

/-- C10: JSON booleans pass the `isinstance(i, int)` check of the index
validation (downloader.py:281-283) because Python's `bool` is a subtype
of `int`; with at least two candidates, a reply entry `true` selects the
candidate at index 1 and `false` the one at index 0 instead of being
dropped as a non-integer. -/
theorem json_bool_passes_integer_check (n : Nat) (h : 2 ≤ n) (xs : List JVal)
    (ht : JVal.jbool true ∈ xs) (hf : JVal.jbool false ∈ xs) :
    pyIsInt (.jbool true) = true ∧ pyIsInt (.jbool false) = true ∧
    1 ∈ filterIndices xs n ∧ 0 ∈ filterIndices xs n := by
  refine ⟨rfl, rfl, ?_, ?_⟩
  · refine List.mem_map.mpr ⟨.jbool true, List.mem_filter.mpr ⟨ht, ?_⟩, rfl⟩
    have h1 : (1 : Int) < (n : Int) := by exact_mod_cast h
    simp [pyIsInt, pyToInt, h1]
  · refine List.mem_map.mpr ⟨.jbool false, List.mem_filter.mpr ⟨hf, ?_⟩, rfl⟩
    have h0 : (0 : Int) < (n : Int) := by exact_mod_cast Nat.lt_of_lt_of_le Nat.zero_lt_two h
    simp [pyIsInt, pyToInt, h0]

/-- Witness for C10: with 5 candidates, the booleans of the reply
`[true, false]` select indices 1 and 0. -/
theorem json_bool_passes_integer_check_witness :
    1 ∈ filterIndices [JVal.jbool true, JVal.jbool false] 5 ∧
    0 ∈ filterIndices [JVal.jbool true, JVal.jbool false] 5 :=
  ⟨(json_bool_passes_integer_check 5 (by decide) _
      (List.mem_cons_self _ _) (List.mem_cons_of_mem _ (List.mem_cons_self _ _))).2.2.1,
   (json_bool_passes_integer_check 5 (by decide) _
      (List.mem_cons_self _ _) (List.mem_cons_of_mem _ (List.mem_cons_self _ _))).2.2.2⟩
